import Mathlib

set_option maxHeartbeats 1000000
set_option maxRecDepth 20000

/-!
Verification development for the KeyStalker extraction pipeline
(`src/extracting/collecting.py`, `src/extracting/download.py`,
`src/extracting/filtering.py`).

The Python sources are shallowly embedded: file contents are `List Char`,
JSON-lines files are lists of structured records together with their
serialized character stream, the network is an explicit function from
request to `Except` outcome, and the collector's `while True` loop is
driven by explicit fuel.  String values are modeled without JSON escaping
(catalog ids are plain ASCII identifiers).
-/

/-! ## Collector: src/extracting/collecting.py -/

/-- One raw catalog row, as consumed by `parse_extension_info`.  The source
indexes an untyped list (`data[0]`, `data[1]`, `data[2]`, `data[6]`,
`data[9]`, `data[10]`, `data[11]`, `data[12]`, `data[22]`, `data[23]`);
here each used position is a named field.  `user_count` is the raw string
at position 23. -/
structure RawRow where
  id : String
  name : String
  developer : String
  description : String
  primary_category : String
  secondary_category : String
  url : String
  rating_score : String
  star_count : String
  user_count : String
deriving DecidableEq

/-- The dictionary built by `parse_extension_info` (insertion order of the
Python dict literal preserved). -/
structure ExtRecord where
  id : String
  name : String
  developer : String
  description : String
  primary_category : String
  secondary_category : String
  rating_score : String
  star_count : String
  user_count : String
  url : String
deriving DecidableEq

/-- One JSON string field `"k": "v"` as `json.dump` renders it with the
default separators. -/
def jsonStrField (k v : String) : String :=
  "\"" ++ k ++ "\": \"" ++ v ++ "\""

/-- The serialized line up to and including the opening quote of the id
value: `\x7b"id": "`. -/
def recordPrefix : String := "\x7b\"id\": \""

/-- The serialized line after the id value: the remaining nine fields and
the closing brace, plus the newline written by `append_dict_to_file`. -/
def recordRest (r : ExtRecord) : String :=
  "\", " ++ jsonStrField "name" r.name
  ++ ", " ++ jsonStrField "developer" r.developer
  ++ ", " ++ jsonStrField "description" r.description
  ++ ", " ++ jsonStrField "primary_category" r.primary_category
  ++ ", " ++ jsonStrField "secondary_category" r.secondary_category
  ++ ", " ++ jsonStrField "rating_score" r.rating_score
  ++ ", " ++ jsonStrField "star_count" r.star_count
  ++ ", " ++ jsonStrField "user_count" r.user_count
  ++ ", " ++ jsonStrField "url" r.url
  ++ "\x7d\n"

/-- `append_dict_to_file`: the characters one record contributes to the
output file (a `json.dump` of the ordered dict followed by a newline). -/
def serializeRecord (r : ExtRecord) : List Char :=
  recordPrefix.data ++ r.id.data ++ (recordRest r).data

/-- The full character content of the output file after the given records
have been appended in order. -/
def fileContent : List ExtRecord → List Char
  | [] => []
  | r :: rest => serializeRecord r ++ fileContent rest

/-- Python's substring containment `needle in haystack` on character
lists. -/
def strInside (needle : List Char) : List Char → Bool
  | [] => needle.isEmpty
  | c :: t => needle.isPrefixOf (c :: t) || strInside needle t

/-- `is_string_in_file`: `target_string in file.read()` against the output
file whose appended records are `log` (a missing file reads as the empty
log). -/
def is_string_in_file (target : String) (log : List ExtRecord) : Bool :=
  strInside target.data (fileContent log)

/-- Numeric value of a digit string (used only when all characters are
digits). -/
def digitCharsVal (cs : List Char) : Nat :=
  cs.foldl (fun n c => n * 10 + (c.toNat - 48)) 0

/-- A nonempty all-digit character list converts to a natural number;
anything else is a `ValueError`. -/
def pyIntDigits (cs : List Char) : Option Nat :=
  if cs ≠ [] ∧ cs.all (·.isDigit) then some (digitCharsVal cs) else none

/-- Python `str.strip()` of surrounding whitespace. -/
def pyTrim (cs : List Char) : List Char :=
  ((cs.dropWhile (·.isWhitespace)).reverse.dropWhile (·.isWhitespace)).reverse

/-- Python `int(s)`: optional surrounding whitespace, optional sign, then
decimal digits; `none` models `ValueError`. -/
def pyInt (cs : List Char) : Option Int :=
  match pyTrim cs with
  | '-' :: rest => (pyIntDigits rest).map (fun n => -(n : Int))
  | '+' :: rest => (pyIntDigits rest).map (fun n => (n : Int))
  | other => (pyIntDigits other).map (fun n => (n : Int))

/-- `int(data[23].replace(',', '').replace('+', ''))`: every comma and
every plus sign is removed (not only thousands separators or a trailing
plus), then the remainder is converted. -/
def parse_user_count (s : String) : Option Int :=
  pyInt ((s.data.filter (fun c => !(c == ','))).filter (fun c => !(c == '+')))

/-- `CONFIG['MIN_USER_COUNT']`. -/
def MIN_USER_COUNT : Int := 1

/-- The `extension_info` dict literal built by `parse_extension_info`. -/
def rowInfo (r : RawRow) : ExtRecord :=
  { id := r.id, name := r.name, developer := r.developer,
    description := r.description,
    primary_category := r.primary_category,
    secondary_category := r.secondary_category,
    rating_score := r.rating_score, star_count := r.star_count,
    user_count := r.user_count, url := r.url }

/-- `parse_extension_info`: returns `(ext_id, user_count, extension_info)`
or fails (the source raises `ValueError`). -/
def parse_extension_info (r : RawRow) : Option (String × Int × ExtRecord) :=
  match parse_user_count r.user_count with
  | none => none
  | some c => some (r.id, c, rowInfo r)

/-- `process_extensions`: walks the rows of one page.  Dedup check first,
then the popularity threshold; a parse failure raises, so the error case
carries the file state at the moment of the exception together with the
offending row.  On success it returns the file state and the count of
newly appended entries. -/
def process_extensions :
    List RawRow → List ExtRecord →
    Except (List ExtRecord × RawRow) (List ExtRecord × Nat)
  | [], log => .ok (log, 0)
  | r :: rest, log =>
    match parse_extension_info r with
    | none => .error (log, r)
    | some (ext_id, user_count, info) =>
      if is_string_in_file ext_id log then
        process_extensions rest log
      else if MIN_USER_COUNT ≤ user_count then
        match process_extensions rest (log ++ [info]) with
        | .ok (log', n) => .ok (log', n + 1)
        | .error e => .error e
      else
        process_extensions rest log

/-- The file state left by `process_extensions` whether it returned or
raised. -/
def procResultLog
    (res : Except (List ExtRecord × RawRow) (List ExtRecord × Nat)) :
    List ExtRecord :=
  match res with
  | .ok (l, _) => l
  | .error (l, _) => l

/-- Sequential processing of any number of pages (possibly spanning
several runs: the output file is the only state that dedup consults). A
page whose processing raises leaves the file at its partial state and
later pages may still be processed by a later run. -/
def processPagesLog : List (List RawRow) → List ExtRecord → List ExtRecord
  | [], log => log
  | p :: ps, log => processPagesLog ps (procResultLog (process_extensions p log))

/-- One decoded catalog page: `response_data[0][1][1]` (the item rows) and
`response_data[0][1][4]` (the raw next-page token, `'#@'` is the
sentinel). -/
structure Page where
  items : List RawRow
  nextToken : String
deriving DecidableEq

/-- Observable collector state: the output file, the checkpoint file
content (`none` = file absent, the `token` field otherwise), the number
of fetches issued so far, the tokens those fetches used, and
`total_saved`. -/
structure CollectorState where
  log : List ExtRecord
  checkpoint : Option String
  callIdx : Nat
  fetchedTokens : List (Option String)
  totalSaved : Nat
deriving DecidableEq

/-- How a collector run ended. -/
inductive RunOutcome
  /-- the loop hit one of its `break`s that are not the fetch-error one -/
  | finishedNormal
  /-- `make_request`/`parse_response` raised: the `except` branch broke
  the loop -/
  | abortedFetch
  /-- `process_extensions` raised outside the `try`: the exception
  propagated out of `run` -/
  | crashedParse
  /-- fuel exhausted (the source loop would still be running) -/
  | fuelOut
deriving DecidableEq

/-- `WebStoreCollector.run`'s `while True` loop.  `fetch i tok` models
`make_request` plus `parse_response` for the `i`-th request of this run
with page token `tok`; an `Except.error` is any transport or decoding
exception.  Mirrors the source order: fetch, sentinel-normalize the next
token, empty-page break, `process_extensions`, checkpoint save of a
non-absent token, and the no-progress termination test. -/
def runLoop (fetch : Nat → Option String → Except String Page) :
    Nat → Option String → CollectorState → CollectorState × RunOutcome
  | 0, _, st => (st, .fuelOut)
  | fuel + 1, tok, st =>
    match fetch st.callIdx tok with
    | .error _ =>
        ({ st with callIdx := st.callIdx + 1,
                   fetchedTokens := st.fetchedTokens ++ [tok] },
         .abortedFetch)
    | .ok page =>
      let st1 : CollectorState :=
        { st with callIdx := st.callIdx + 1,
                  fetchedTokens := st.fetchedTokens ++ [tok] }
      let tok' : Option String :=
        if page.nextToken = "#@" then none else some page.nextToken
      if page.items.isEmpty then (st1, .finishedNormal)
      else
        match process_extensions page.items st1.log with
        | .error (log', _) => ({ st1 with log := log' }, .crashedParse)
        | .ok (log', saved) =>
          let st2 : CollectorState :=
            { st1 with log := log', totalSaved := st1.totalSaved + saved }
          let st3 : CollectorState :=
            match tok' with
            | some t => { st2 with checkpoint := some t }
            | none => st2
          if saved = 0 ∧ tok' = none then (st3, .finishedNormal)
          else runLoop fetch fuel tok' st3

/-- `WebStoreCollector.run`: load the checkpoint (`load_checkpoint`) and
drive the loop. -/
def runCollector (fetch : Nat → Option String → Except String Page)
    (fuel : Nat) (st : CollectorState) : CollectorState × RunOutcome :=
  runLoop fetch fuel st.checkpoint st

/-- A collector state with empty output file, no checkpoint file and no
requests issued: a run from scratch. -/
def initialCollectorState : CollectorState :=
  { log := [], checkpoint := none, callIdx := 0, fetchedTokens := [],
    totalSaved := 0 }

/-! ## Classifier: src/extracting/filtering.py -/

/-- One entry of `manifest.get('web_accessible_resources', [])`.  The
source keeps only entries that are dicts (`isinstance(resource, dict)`)
and reads `resource.get('resources', [])` from them. -/
inductive WarEntry
  /-- a dict entry with its `resources` list (absent key = empty list) -/
  | dict (resources : List String)
  /-- a non-dict entry (e.g. a bare string, as in manifest v2) -/
  | nonDict
deriving DecidableEq

/-- Python `s.endswith(suffix)` on modeled strings. -/
def pyEndsWith (s suf : String) : Bool :=
  List.isSuffixOf suf.data s.data

/-- One `web_accessible_resources` entry passes the source check
`isinstance(resource, dict) and any(res.endswith(('html', 'js')) for res
in resource.get('resources', []))`.  Note the suffixes are the bare
strings `'html'` and `'js'`, without a leading dot. -/
def warEntryMatches : WarEntry → Bool
  | .nonDict => false
  | .dict resources => resources.any (fun res => pyEndsWith res "html" || pyEndsWith res "js")

/-- Python `str()` of a list of strings: `[]` or `['a', 'b']` (quotes in
the elements themselves are not modeled). -/
def pyStrOfList (xs : List String) : String :=
  "[" ++ String.intercalate ", " (xs.map (fun s => "'" ++ s ++ "'")) ++ "]"

/-- The descriptor (`manifest.json`) as `is_network_related` and
`clean_manifest` consume it.  Capability-relevant keys are structured;
`host_permissions`, `chrome_url_overrides` and `optional_permissions`
only matter by presence.  An action dict is an association list (key,
string value); a content script is represented by its key set.  The
seven presentational fields touched by `clean_manifest` carry their
(string-modeled) values when present, and `extra` holds every remaining
field of the descriptor. -/
structure Manifest where
  web_accessible_resources : List WarEntry := []
  host_permissions : Bool := false
  chrome_url_overrides : Bool := false
  content_scripts : List (List String) := []
  permissions : List String := []
  action : Option (List (String × String)) := none
  browser_action : Option (List (String × String)) := none
  optional_permissions : Bool := false
  name : Option String := none
  description : Option String := none
  icons : Option String := none
  version : Option String := none
  default_locale : Option String := none
  short_name : Option String := none
  update_url : Option String := none
  extra : List (String × String) := []
deriving DecidableEq

/-- The `web_accessible` local of `is_network_related`. -/
def webAccessibleFlag (m : Manifest) : Bool :=
  m.web_accessible_resources.any warEntryMatches

/-- The `has_permissions` local: any of `'://'`, `'<all_urls>'`,
`'webRequest'` occurs as a substring of
`str(manifest.get('permissions', []))`. -/
def hasPermissionsFlag (m : Manifest) : Bool :=
  ["://", "<all_urls>", "webRequest"].any
    (fun flag => strInside flag.data (pyStrOfList m.permissions).data)

/-- The `content_scripts` local: `any('js' in script for script in
manifest.get('content_scripts', []))` — a key-membership test on each
script dict. -/
def contentScriptsFlag (m : Manifest) : Bool :=
  m.content_scripts.any (fun script => script.contains "js")

/-- The `has_action` local: if an `action` or `browser_action` key is
present, take `manifest.get('action', manifest.get('browser_action'))`;
the flag is set when that dict is truthy (non-empty), has a
`default_popup` key, and the popup value is non-empty. -/
def hasActionFlag (m : Manifest) : Bool :=
  if m.browser_action.isSome || m.action.isSome then
    match (match m.action with
           | some a => some a
           | none => m.browser_action) with
    | some a =>
        decide (a ≠ []) &&
        (match a.lookup "default_popup" with
         | some v => decide (0 < v.length)
         | none => false)
    | none => false
  else false

/-- `is_network_related`: the seven-way disjunction, in source order. -/
def is_network_related (m : Manifest) : Bool :=
  webAccessibleFlag m || hasPermissionsFlag m || m.host_permissions ||
  contentScriptsFlag m || hasActionFlag m || m.optional_permissions ||
  m.chrome_url_overrides

/-- `clean_manifest`: pops `update_url`, `name`, `description`,
`short_name`, `icons`, `version`, `default_locale` from the in-memory
dict (a `pop` with default never raises; absent keys stay absent). -/
def clean_manifest (m : Manifest) : Manifest :=
  { m with update_url := none, name := none, description := none,
           short_name := none, icons := none, version := none,
           default_locale := none }

/-- `identify_network_related_extensions` over a modeled store: one
`(ext_id, manifest)` pair per downloaded id, where the manifest component
is `none` when no `manifest.json` exists at the id's extracted directory
(such ids are skipped).  Returns the ids classified network-related and
the store as the function leaves it on disk: the source only reads
manifests, `clean_manifest` mutates a local in-memory dict that is then
discarded, so the store passes through unchanged. -/
def identify_network_related_extensions
    (store : List (String × Option Manifest)) :
    List String × List (String × Option Manifest) :=
  (store.filterMap (fun p =>
      match p.2 with
      | none => none
      | some man => if is_network_related man then some p.1 else none),
   store)

/-! ## Downloader: src/extracting/download.py -/

/-- One record as `json.loads` of a line of the record log yields it and
as `main` consumes it: `ext.get('id')` is `none` when the key is absent,
and the remaining fields are uninterpreted. -/
structure DlRecord where
  id : Option String := none
  extra : List (String × String) := []
deriving DecidableEq

/-- Per-item user-visible outcomes surfaced on the progress bar
(`pbar.set_postfix`): success, or failure with the item id and the
stringified cause. -/
inductive DlEvent
  | downloaded (i : String)
  | failed (i : String) (cause : String)
deriving DecidableEq

/-- Downloader state: the files under `DOWNLOAD_DIR` (path contents),
the ids for which a network request was issued, in order, and the
surfaced per-item events, in order. -/
structure DlState where
  files : List (String × String) := []
  calls : List String := []
  trace : List DlEvent := []
deriving DecidableEq

/-- `DOWNLOAD_DIR` from `extracting/config.py`. -/
def DOWNLOAD_DIR : String := "./data/extension/"

/-- `os.path.join(CONFIG['DOWNLOAD_DIR'], f"{ext_id}.crx")`: the storage
path derived solely from the id. -/
def crxOutputPath (extId : String) : String :=
  DOWNLOAD_DIR ++ extId ++ ".crx"

/-- The body of `main`'s loop for one record: skip a falsy id
(`if not ext_id: continue`), skip when the output file already exists
(`os.path.isfile`), otherwise `download_extension` — one network request
(`net`), a successful response body written to the output path, any
raised exception caught and surfaced as a per-item failure. -/
def downloadStep (net : String → Except String String) (r : DlRecord)
    (st : DlState) : DlState :=
  match r.id with
  | none => st
  | some extId =>
    if extId = "" then st
    else if (st.files.lookup (crxOutputPath extId)).isSome then st
    else
      match net extId with
      | .ok body =>
          { st with files := st.files ++ [(crxOutputPath extId, body)],
                    calls := st.calls ++ [extId],
                    trace := st.trace ++ [.downloaded extId] }
      | .error cause =>
          { st with calls := st.calls ++ [extId],
                    trace := st.trace ++ [.failed extId cause] }

/-- `main`'s loop over the loaded records, in file order. -/
def downloaderMain (net : String → Except String String) :
    List DlRecord → DlState → DlState
  | [], st => st
  | r :: rest, st => downloaderMain net rest (downloadStep net r st)

/-- `load_extension_list`: a missing file raises `FileNotFoundError`;
otherwise each line is `json.loads`-decoded (`some` record) or skipped on
`json.JSONDecodeError` (`none`), with no logging in either case. -/
def loadLines : List (Option DlRecord) → List DlRecord
  | [] => []
  | some r :: rest => r :: loadLines rest
  | none :: rest => loadLines rest

/-- `load_extension_list` including the existence check on the record-log
file (`none` = file absent). -/
def load_extension_list (file : Option (List (Option DlRecord))) :
    Except String (List DlRecord) :=
  match file with
  | none => .error "Extension list file not found"
  | some lines => .ok (loadLines lines)

/-- The id under which a record is downloaded, when it is not skipped by
the falsy-id check. -/
def recordValidId (r : DlRecord) : Option String :=
  match r.id with
  | none => none
  | some extId => if extId = "" then none else some extId

/-- Whether an `Except` outcome is a success. -/
def exceptIsOk (e : Except String String) : Bool :=
  match e with
  | .ok _ => true
  | .error _ => false

/-! ## Concrete fixtures -/

/-- Fixture row: id `aaa`, 5 users (above threshold). -/
def rowA : RawRow :=
  { id := "aaa", name := "Alpha", developer := "devA", description := "descA",
    primary_category := "c1", secondary_category := "c2", url := "urlA",
    rating_score := "4.5", star_count := "100", user_count := "5" }

/-- Fixture row: id `bbb`, 0 users (below the minimum of 1). -/
def rowB : RawRow :=
  { id := "bbb", name := "Beta", developer := "devB", description := "descB",
    primary_category := "c1", secondary_category := "c2", url := "urlB",
    rating_score := "3.0", star_count := "10", user_count := "0" }

/-- Fixture row: id `ccc`, 12 users. -/
def rowC : RawRow :=
  { id := "ccc", name := "Gamma", developer := "devC", description := "descC",
    primary_category := "c1", secondary_category := "c2", url := "urlC",
    rating_score := "4.0", star_count := "50", user_count := "12" }

/-- Fixture row: id `ddd`, 7 users (the only row of page 2). -/
def rowD : RawRow :=
  { id := "ddd", name := "Delta", developer := "devD", description := "descD",
    primary_category := "c1", secondary_category := "c2", url := "urlD",
    rating_score := "5.0", star_count := "7", user_count := "7" }

/-- Fixture row whose user-count string `n/a` makes `int()` raise. -/
def badRow : RawRow :=
  { id := "eee", name := "Eps", developer := "devE", description := "descE",
    primary_category := "c1", secondary_category := "c2", url := "urlE",
    rating_score := "1.0", star_count := "2", user_count := "n/a" }

/-- Well-formed fixture row following `badRow` on the same page. -/
def goodRow : RawRow :=
  { id := "fff", name := "Zeta", developer := "devF", description := "descF",
    primary_category := "c1", secondary_category := "c2", url := "urlF",
    rating_score := "2.0", star_count := "3", user_count := "3" }

/-- The record `parse_extension_info` builds from `rowA`. -/
def infoA : ExtRecord :=
  { id := "aaa", name := "Alpha", developer := "devA", description := "descA",
    primary_category := "c1", secondary_category := "c2",
    rating_score := "4.5", star_count := "100", user_count := "5", url := "urlA" }

/-- The record `parse_extension_info` builds from `rowB`. -/
def infoB : ExtRecord :=
  { id := "bbb", name := "Beta", developer := "devB", description := "descB",
    primary_category := "c1", secondary_category := "c2",
    rating_score := "3.0", star_count := "10", user_count := "0", url := "urlB" }

/-- The record `parse_extension_info` builds from `rowC`. -/
def infoC : ExtRecord :=
  { id := "ccc", name := "Gamma", developer := "devC", description := "descC",
    primary_category := "c1", secondary_category := "c2",
    rating_score := "4.0", star_count := "50", user_count := "12", url := "urlC" }

/-- Two-page fixture catalog, page 1: three rows (one below threshold),
next cursor `t2`. -/
def page1 : Page := { items := [rowA, rowB, rowC], nextToken := "t2" }

/-- Two-page fixture catalog, page 2: one new row, sentinel next
cursor. -/
def page2 : Page := { items := [rowD], nextToken := "#@" }

/-- The two-page fixture catalog as a fetch function: no token serves
page 1, token `t2` serves page 2. -/
def fixtureFetch : Nat → Option String → Except String Page :=
  fun _ tok =>
    match tok with
    | none => .ok page1
    | some t => if t = "t2" then .ok page2 else .error "unknown token"

/-- The two-page fixture catalog whose transport fails from the third
request of a run onward. -/
def c5fetch : Nat → Option String → Except String Page :=
  fun i tok =>
    if 2 ≤ i then .error "connection reset"
    else
      match tok with
      | none => .ok page1
      | some t => if t = "t2" then .ok page2 else .error "unknown token"

/-- A fetch that always serves a single page holding a malformed row
followed by a well-formed one. -/
def badPageFetch : Nat → Option String → Except String Page :=
  fun _ _ => .ok { items := [badRow, goodRow], nextToken := "#@" }

/-- Full collector run from scratch over the two-page fixture catalog. -/
def c2Result : CollectorState × RunOutcome :=
  runCollector fixtureFetch 10 initialCollectorState

/-- First collector run against `c5fetch`: both pages succeed, the third
request hits the transport error. -/
def c5Run1 : CollectorState × RunOutcome :=
  runCollector c5fetch 10 initialCollectorState

/-- The state a fresh invocation starts from after `c5Run1`: the output
file and checkpoint file as `c5Run1` left them on disk. -/
def c5ResumeState : CollectorState :=
  { log := c5Run1.1.log, checkpoint := c5Run1.1.checkpoint, callIdx := 0,
    fetchedTokens := [], totalSaved := 0 }

/-- The subsequent collector run resuming from `c5Run1`'s checkpoint. -/
def c5Run2 : CollectorState × RunOutcome :=
  runCollector c5fetch 10 c5ResumeState

/-- A descriptor whose only capability signal is a web-accessible
resource path ending in `xhtml`: it ends with the bare suffix `html` but
not with `.html` (nor `.js`). -/
def manifestXhtml : Manifest :=
  { web_accessible_resources := [.dict ["page.xhtml"]] }

/-- A descriptor whose only capability signal is a web-accessible
resource path ending in `.html`. -/
def manifestHtml : Manifest :=
  { web_accessible_resources := [.dict ["popup.html"]] }

/-- A descriptor with none of the seven capability disjuncts but with all
seven presentational fields present. -/
def plainManifest : Manifest :=
  { name := some "Ext", description := some "d", icons := some "i",
    version := some "1.0", default_locale := some "en",
    short_name := some "E", update_url := some "u",
    extra := [("manifest_version", "3")] }

/-- A record whose id is `aaa`. -/
def recA : DlRecord := { id := some "aaa" }

/-- A record whose id is `bbb`. -/
def recB : DlRecord := { id := some "bbb" }

/-- A record with an empty id string. -/
def recEmptyId : DlRecord := { id := some "" }

/-- A record with no id field. -/
def recNoId : DlRecord := { extra := [("name", "x")] }

/-- A network on which every download succeeds. -/
def netOk : String → Except String String :=
  fun i => .ok ("bytes-" ++ i)

/-- A network on which the download of `bbb` fails and every other
download succeeds. -/
def netFailB : String → Except String String :=
  fun i => if i = "bbb" then .error "HTTP 404" else .ok ("bytes-" ++ i)

/-- A downloader state in which `aaa`'s archive already exists. -/
def stPre : DlState :=
  { files := [(crxOutputPath "aaa", "old-bytes")], calls := [], trace := [] }

/-! ## Substring machinery -/

theorem strInside_nil_needle (h : List Char) : strInside [] h = true := by
  induction h with
  | nil => rfl
  | cons c t ih => simp [strInside, List.isPrefixOf]

theorem isPrefixOf_extendR (n : List Char) :
    ∀ h t : List Char, n.isPrefixOf h = true → n.isPrefixOf (h ++ t) = true := by
  induction n with
  | nil => intro h t _; simp [List.isPrefixOf]
  | cons c n' ih =>
    intro h t hp
    cases h with
    | nil => simp [List.isPrefixOf] at hp
    | cons d h' =>
      simp only [List.cons_append]
      simp only [List.isPrefixOf, Bool.and_eq_true] at hp ⊢
      exact ⟨hp.1, ih h' t hp.2⟩

theorem strInside_extendR (n : List Char) :
    ∀ h t : List Char, strInside n h = true → strInside n (h ++ t) = true := by
  intro h
  induction h with
  | nil =>
    intro t hin
    simp only [strInside, List.isEmpty_iff] at hin
    subst hin
    simpa using strInside_nil_needle t
  | cons c h' ih =>
    intro t hin
    simp only [strInside, Bool.or_eq_true] at hin ⊢
    rcases hin with hp | hrest
    · exact Or.inl (isPrefixOf_extendR n (c :: h') t hp)
    · exact Or.inr (ih t hrest)

theorem strInside_extendL (n : List Char) :
    ∀ h t : List Char, strInside n t = true → strInside n (h ++ t) = true := by
  intro h
  induction h with
  | nil => intro t hin; simpa using hin
  | cons c h' ih =>
    intro t hin
    simp only [List.cons_append, strInside, Bool.or_eq_true]
    exact Or.inr (ih t hin)

theorem isPrefixOf_self_append (n q : List Char) : n.isPrefixOf (n ++ q) = true := by
  induction n with
  | nil => simp [List.isPrefixOf]
  | cons c n' ih => simp [List.isPrefixOf, ih]

theorem strInside_here (n q : List Char) : strInside n (n ++ q) = true := by
  cases n with
  | nil => simpa using strInside_nil_needle q
  | cons c n' =>
    simp only [List.cons_append, strInside, Bool.or_eq_true]
    exact Or.inl (isPrefixOf_self_append (c :: n') q)

theorem strInside_middle (n p q : List Char) : strInside n (p ++ (n ++ q)) = true :=
  strInside_extendL n p (n ++ q) (strInside_here n q)

theorem id_inside_serialize (r : ExtRecord) :
    strInside r.id.data (serializeRecord r) = true :=
  strInside_middle r.id.data recordPrefix.data (recordRest r).data

theorem fileContent_app (l1 l2 : List ExtRecord) :
    fileContent (l1 ++ l2) = fileContent l1 ++ fileContent l2 := by
  induction l1 with
  | nil => simp [fileContent]
  | cons r rest ih => simp [fileContent, ih]

theorem id_inside_content (r : ExtRecord) :
    ∀ log : List ExtRecord, r ∈ log → strInside r.id.data (fileContent log) = true := by
  intro log
  induction log with
  | nil => intro hmem; exact absurd hmem (List.not_mem_nil r)
  | cons x rest ih =>
    intro hmem
    rcases List.mem_cons.mp hmem with heq | htail
    · subst heq
      exact strInside_extendR r.id.data (serializeRecord r) (fileContent rest)
        (id_inside_serialize r)
    · exact strInside_extendL r.id.data (serializeRecord x) (fileContent rest) (ih htail)

theorem id_not_logged (i : String) (log : List ExtRecord)
    (hfile : is_string_in_file i log = false) :
    ∀ r ∈ log, r.id ≠ i := by
  intro r hr heq
  have hin : strInside i.data (fileContent log) = true := by
    rw [← heq]; exact id_inside_content r log hr
  rw [is_string_in_file] at hfile
  rw [hfile] at hin
  exact Bool.false_ne_true hin

/-! ## Dedup invariant -/

theorem process_preserves_nodup :
    ∀ (rows : List RawRow) (log : List ExtRecord),
      (log.map ExtRecord.id).Nodup →
      ((procResultLog (process_extensions rows log)).map ExtRecord.id).Nodup := by
  intro rows
  induction rows with
  | nil => intro log hlog; simpa [process_extensions, procResultLog] using hlog
  | cons r rest ih =>
    intro log hlog
    cases hp : parse_user_count r.user_count with
    | none =>
      simp only [process_extensions, parse_extension_info, hp]
      simpa [procResultLog] using hlog
    | some c =>
      simp only [process_extensions, parse_extension_info, hp]
      by_cases hfile : is_string_in_file r.id log = true
      · rw [if_pos hfile]
        exact ih log hlog
      · rw [if_neg hfile]
        have hfile' : is_string_in_file r.id log = false := by
          simpa using hfile
        by_cases hmin : MIN_USER_COUNT ≤ c
        · rw [if_pos hmin]
          have hnotmem : r.id ∉ log.map ExtRecord.id := by
            intro hm
            obtain ⟨x, hx, hxid⟩ := List.mem_map.mp hm
            exact id_not_logged r.id log hfile' x hx hxid
          have h' : ((log ++ [rowInfo r]).map ExtRecord.id).Nodup := by
            simp only [List.map_append, List.map_cons, List.map_nil, List.nodup_append]
            exact ⟨hlog, List.nodup_singleton _, by simpa [rowInfo] using hnotmem⟩
          have hrec := ih _ h'
          cases hres : process_extensions rest (log ++ [rowInfo r]) with
          | ok p =>
            rw [hres] at hrec
            obtain ⟨l', n'⟩ := p
            simpa [procResultLog] using hrec
          | error e =>
            rw [hres] at hrec
            simpa [procResultLog] using hrec
        · rw [if_neg hmin]
          exact ih log hlog

theorem processPages_preserves_nodup :
    ∀ (pages : List (List RawRow)) (log : List ExtRecord),
      (log.map ExtRecord.id).Nodup →
      ((processPagesLog pages log).map ExtRecord.id).Nodup := by
  intro pages
  induction pages with
  | nil => intro log hlog; simpa [processPagesLog] using hlog
  | cons p ps ih =>
    intro log hlog
    simp only [processPagesLog]
    exact ih _ (process_preserves_nodup p log hlog)

/-- Claim C4: across any sequence of catalog pages and runs starting from
an empty record log, each id appears at most once in the record log: the
ids of the appended records are pairwise distinct, so two rows sharing an
id lead to at most one appended record with that id. -/
theorem c4_dedup_at_most_once (pages : List (List RawRow)) :
    ((processPagesLog pages []).map ExtRecord.id).Nodup :=
  processPages_preserves_nodup pages [] (by simp)

/-! ## Row parse failure (C1) -/

/-- Claim C1 counterexample: on a page holding a malformed row followed by
a well-formed new above-threshold row, `process_extensions` raises at the
malformed row: the well-formed row is never appended (the file stays
empty) and the exception propagates out of `run` (it is raised outside
the `try` that only guards the fetch/decode), so the collection run is
aborted — contradicting the claim that only the malformed row is dropped
while the remaining rows are still processed. -/
theorem c1_counterexample :
    process_extensions [badRow, goodRow] [] = .error ([], badRow)
    ∧ (runCollector badPageFetch 5 initialCollectorState).2 = .crashedParse
    ∧ (runCollector badPageFetch 5 initialCollectorState).1.log = [] :=
  ⟨rfl, rfl, rfl⟩

/-- Claim C1 amended: a parsing failure on a single row aborts the whole
page and the run: the rows appended before the failing row are kept, the
failing row and every row after it on the page are not processed, and
`process_extensions` propagates the error. -/
theorem c1_parse_failure_aborts_page (pre : List RawRow) (bad : RawRow)
    (post : List RawRow) :
    ∀ (log log' : List ExtRecord) (n : Nat),
      parse_extension_info bad = none →
      process_extensions pre log = .ok (log', n) →
      process_extensions (pre ++ bad :: post) log = .error (log', bad) := by
  induction pre with
  | nil =>
    intro log log' n hbad hok
    simp only [process_extensions] at hok
    obtain ⟨hlog, -⟩ := Prod.mk.injEq _ _ _ _ ▸ Except.ok.inj hok
    subst hlog
    simp [process_extensions, hbad]
  | cons r pre' ih =>
    intro log log' n hbad hok
    cases hp : parse_user_count r.user_count with
    | none =>
      simp only [process_extensions, parse_extension_info, hp] at hok
      exact absurd hok (by simp)
    | some c =>
      simp only [process_extensions, parse_extension_info, hp] at hok
      simp only [List.cons_append]
      simp only [process_extensions, parse_extension_info, hp]
      by_cases hfile : is_string_in_file r.id log = true
      · rw [if_pos hfile] at hok ⊢
        exact ih log log' n hbad hok
      · rw [if_neg hfile] at hok ⊢
        by_cases hmin : MIN_USER_COUNT ≤ c
        · rw [if_pos hmin] at hok ⊢
          cases hres : process_extensions pre' (log ++ [rowInfo r]) with
          | ok p =>
            rw [hres] at hok
            obtain ⟨l2, n2⟩ := p
            simp only [Except.ok.injEq, Prod.mk.injEq] at hok
            rw [ih (log ++ [rowInfo r]) l2 n2 hbad hres, hok.1]
          | error e =>
            rw [hres] at hok
            exact absurd hok (by simp)
        · rw [if_neg hmin] at hok ⊢
          exact ih log log' n hbad hok

/-- Witness for the amended C1 at a concrete page: one good row, then the
malformed row, then another good row; processing keeps the first row's
record and raises at the malformed one. -/
theorem c1_parse_failure_aborts_page_w :
    process_extensions [rowA, badRow, goodRow] [] = .error ([infoA], badRow) :=
  c1_parse_failure_aborts_page [rowA] badRow [goodRow] [] [infoA] 1 rfl rfl

/-! ## End-to-end fixture run (C2) -/

/-- Claim C2 counterexample: the full run over the two-page fixture
catalog does terminate with exactly three appended records, but the
persisted checkpoint is the page-2 cursor `t2`, not the
sentinel-normalized absent value: `save_checkpoint` is only called for a
non-absent token and the checkpoint file is never cleared. -/
theorem c2_counterexample :
    c2Result.2 = .finishedNormal
    ∧ c2Result.1.log.map ExtRecord.id = ["aaa", "ccc", "ddd"]
    ∧ c2Result.1.checkpoint ≠ none :=
  ⟨rfl, rfl, by decide⟩

/-- Claim C2 amended: a full collector run from scratch over the two-page
fixture catalog terminates, appends exactly three records to the record
log, and leaves the persisted checkpoint equal to the page-2 cursor `t2`
— the last committed non-sentinel cursor — because a sentinel-normalized
absent token is never written to the checkpoint file.  (The run reaches
the terminating no-progress state only after re-fetching both pages a
second time: the sentinel-normalized absent token sends it back to page
one.) -/
theorem c2_fixture_run :
    c2Result.2 = .finishedNormal
    ∧ c2Result.1.log.map ExtRecord.id = ["aaa", "ccc", "ddd"]
    ∧ c2Result.1.log.length = 3
    ∧ c2Result.1.totalSaved = 3
    ∧ c2Result.1.checkpoint = some "t2"
    ∧ c2Result.1.fetchedTokens = [none, some "t2", none, some "t2"] :=
  ⟨rfl, rfl, rfl, rfl, rfl, rfl⟩

/-! ## Capability predicate (C3) and manifest stripping (C6) -/

/-- Claim C3 counterexample: a descriptor whose only web-accessible
resource path is `page.xhtml` — which ends in neither `.html` nor `.js`
— and in which all six other disjuncts are false is nevertheless
classified network-related, because the source checks the bare suffixes
`html`/`js` (`res.endswith(('html', 'js'))`) without a dot. -/
theorem c3_counterexample :
    is_network_related manifestXhtml = true
    ∧ manifestXhtml.web_accessible_resources.all
        (fun e => match e with
          | .dict rs => rs.all (fun res =>
              !(pyEndsWith res ".html" || pyEndsWith res ".js"))
          | .nonDict => true) = true
    ∧ hasPermissionsFlag manifestXhtml = false
    ∧ manifestXhtml.host_permissions = false
    ∧ contentScriptsFlag manifestXhtml = false
    ∧ hasActionFlag manifestXhtml = false
    ∧ manifestXhtml.optional_permissions = false
    ∧ manifestXhtml.chrome_url_overrides = false := by
  refine ⟨rfl, by decide, rfl, rfl, rfl, rfl, rfl, rfl⟩

/-- Claim C3 amended: the first disjunct of the capability predicate
holds precisely for descriptors in which some dict-shaped
web-accessible-resource entry lists a resource path ending in the bare
suffix `html` or `js` (no dot required, so `.html`/`.js` match but so do
`xhtml` and `mjs`); every such descriptor is classified network-related,
and when the other six disjuncts are false the classification equals
that first disjunct. -/
theorem c3_web_accessible_disjunct (m : Manifest) :
    (webAccessibleFlag m = true ↔
      ∃ e ∈ m.web_accessible_resources, ∃ rs, e = WarEntry.dict rs ∧
        ∃ res ∈ rs, (pyEndsWith res "html" = true ∨ pyEndsWith res "js" = true))
    ∧ (webAccessibleFlag m = true → is_network_related m = true)
    ∧ (hasPermissionsFlag m = false → m.host_permissions = false →
       contentScriptsFlag m = false → hasActionFlag m = false →
       m.optional_permissions = false → m.chrome_url_overrides = false →
       is_network_related m = webAccessibleFlag m) := by
  refine ⟨?_, ?_, ?_⟩
  · constructor
    · intro h
      obtain ⟨e, he, hm⟩ := List.any_eq_true.mp h
      cases e with
      | nonDict => simp [warEntryMatches] at hm
      | dict rs =>
        have hm' : ∃ res ∈ rs,
            pyEndsWith res "html" = true ∨ pyEndsWith res "js" = true := by
          simpa [warEntryMatches, List.any_eq_true] using hm
        obtain ⟨res, hres, hsuf⟩ := hm'
        exact ⟨.dict rs, he, rs, rfl, res, hres, hsuf⟩
    · rintro ⟨e, he, rs, rfl, res, hres, hsuf⟩
      refine List.any_eq_true.mpr ⟨.dict rs, he, ?_⟩
      simp only [warEntryMatches]
      refine List.any_eq_true.mpr ⟨res, hres, ?_⟩
      rcases hsuf with h | h <;> simp [h]
  · intro h
    simp [is_network_related, h]
  · intro h1 h2 h3 h4 h5 h6
    simp [is_network_related, h1, h2, h3, h4, h5, h6]

/-- Witness for the amended C3: a `popup.html` resource classifies the
descriptor network-related, and on `manifestXhtml` (all other disjuncts
false) the classification coincides with the first disjunct. -/
theorem c3_web_accessible_disjunct_w :
    is_network_related manifestHtml = true
    ∧ is_network_related manifestXhtml = webAccessibleFlag manifestXhtml :=
  ⟨(c3_web_accessible_disjunct manifestHtml).2.1 rfl,
   (c3_web_accessible_disjunct manifestXhtml).2.2 rfl rfl rfl rfl rfl rfl⟩

/-- Claim C6: for a descriptor classified not-network-related the
stripping step removes exactly `name`, `description`, `icons`,
`version`, `default_locale`, `short_name` and `update_url` from the
in-memory descriptor; every other field of the descriptor is unchanged;
and the classification pass writes nothing to and deletes nothing from
the on-disk store. -/
theorem c6_clean_manifest_frame (m : Manifest)
    (_hclass : is_network_related m = false) :
    ((clean_manifest m).name = none ∧ (clean_manifest m).description = none
      ∧ (clean_manifest m).icons = none ∧ (clean_manifest m).version = none
      ∧ (clean_manifest m).default_locale = none
      ∧ (clean_manifest m).short_name = none
      ∧ (clean_manifest m).update_url = none)
    ∧ ((clean_manifest m).web_accessible_resources = m.web_accessible_resources
      ∧ (clean_manifest m).host_permissions = m.host_permissions
      ∧ (clean_manifest m).chrome_url_overrides = m.chrome_url_overrides
      ∧ (clean_manifest m).content_scripts = m.content_scripts
      ∧ (clean_manifest m).permissions = m.permissions
      ∧ (clean_manifest m).action = m.action
      ∧ (clean_manifest m).browser_action = m.browser_action
      ∧ (clean_manifest m).optional_permissions = m.optional_permissions
      ∧ (clean_manifest m).extra = m.extra)
    ∧ (∀ store : List (String × Option Manifest),
        (identify_network_related_extensions store).2 = store) :=
  ⟨⟨rfl, rfl, rfl, rfl, rfl, rfl, rfl⟩,
   ⟨rfl, rfl, rfl, rfl, rfl, rfl, rfl, rfl, rfl⟩,
   fun _ => rfl⟩

/-- Witness for C6 at a concrete non-network descriptor carrying all
seven presentational fields and an extra field. -/
theorem c6_clean_manifest_frame_w :
    ((clean_manifest plainManifest).name = none
      ∧ (clean_manifest plainManifest).description = none
      ∧ (clean_manifest plainManifest).icons = none
      ∧ (clean_manifest plainManifest).version = none
      ∧ (clean_manifest plainManifest).default_locale = none
      ∧ (clean_manifest plainManifest).short_name = none
      ∧ (clean_manifest plainManifest).update_url = none)
    ∧ (clean_manifest plainManifest).extra = plainManifest.extra
    ∧ (identify_network_related_extensions [("aaa", some plainManifest)]).2
        = [("aaa", some plainManifest)] :=
  ⟨(c6_clean_manifest_frame plainManifest rfl).1,
   (c6_clean_manifest_frame plainManifest rfl).2.1.2.2.2.2.2.2.2.2,
   (c6_clean_manifest_frame plainManifest rfl).2.2 [("aaa", some plainManifest)]⟩

/-! ## User-count parsing and threshold (C7) -/

/-- Claim C7: user-count parsing strips separators and plus signs and
converts to integer — `"10,000+"` parses to `10000` and `"1"` to `1` —
and a well-formed row whose parsed user count is below the configured
minimum is never appended to the record log. -/
theorem c7_user_count_parsing :
    parse_user_count "10,000+" = some 10000
    ∧ parse_user_count "1" = some 1
    ∧ (∀ (r : RawRow) (log : List ExtRecord) (i : String) (c : Int)
         (info : ExtRecord),
        parse_extension_info r = some (i, c, info) →
        c < MIN_USER_COUNT →
        process_extensions [r] log = .ok (log, 0)) := by
  refine ⟨by decide, by decide, ?_⟩
  intro r log i c info hparse hlt
  cases hpc : parse_user_count r.user_count with
  | none =>
    simp only [parse_extension_info, hpc] at hparse
    exact absurd hparse (by simp)
  | some c' =>
    simp only [parse_extension_info, hpc, Option.some.injEq, Prod.mk.injEq] at hparse
    obtain ⟨-, hc, -⟩ := hparse
    subst hc
    simp only [process_extensions, parse_extension_info, hpc]
    by_cases hfile : is_string_in_file r.id log = true
    · rw [if_pos hfile]
    · rw [if_neg hfile, if_neg (not_le.mpr hlt)]

/-- Witness for C7 at the fixture row `bbb` with user count `0`: it is
well-formed, below the minimum of 1, and appends nothing. -/
theorem c7_user_count_parsing_w :
    process_extensions [rowB] [] = .ok ([], 0) :=
  c7_user_count_parsing.2.2 rowB [] "bbb" 0 infoB rfl (by decide)

/-! ## Abort and resume (C5) -/

/-- Claim C5 counterexample: with the fixture catalog and a transport
failure on the third request, the first run fully processes page 1 and
page 2 (the sentinel page: its row `ddd` is appended) and then aborts.
The checkpoint still holds `t2` — the cursor of the already completed
page 2, because the sentinel next-token of page 2 was never persisted —
so the subsequent run's first fetch re-uses cursor `t2` and re-fetches
the already completed page 2 (finding nothing new), contradicting
"resumes from the cursor committed for the page after the last fully
processed one and never re-fetches an already completed page". -/
theorem c5_counterexample :
    c5Run1.2 = .abortedFetch
    ∧ c5Run1.1.checkpoint = some "t2"
    ∧ c5Run1.1.fetchedTokens = [none, some "t2", none]
    ∧ c5Run1.1.log.map ExtRecord.id = ["aaa", "ccc", "ddd"]
    ∧ c5Run2.1.fetchedTokens = [some "t2"]
    ∧ c5Run2.1.totalSaved = 0 :=
  ⟨rfl, rfl, rfl, rfl, rfl, rfl⟩

/-- Claim C5 amended: any transport or decoding error aborts the run
immediately — a single failed fetch, no retry — leaving the record log
and the persisted checkpoint exactly as they were before that fetch; and
whenever a page is fully processed and yields a non-sentinel next
cursor, that cursor (the one for the page after the just-completed page)
is committed to the checkpoint before the next fetch, so a later abort
resumes at the page after the last fully processed one.  (When the last
processed page returned the sentinel, its own cursor remains committed
and a resumed run re-fetches that page, as the counterexample shows.) -/
theorem c5_abort_and_commit :
    (∀ (fetch : Nat → Option String → Except String Page) (fuel : Nat)
        (tok : Option String) (st : CollectorState) (msg : String),
      fetch st.callIdx tok = .error msg →
      runLoop fetch (fuel + 1) tok st =
        ({ st with callIdx := st.callIdx + 1,
                   fetchedTokens := st.fetchedTokens ++ [tok] },
         .abortedFetch))
    ∧ (∀ (fetch : Nat → Option String → Except String Page) (fuel : Nat)
        (tok : Option String) (st : CollectorState) (page : Page)
        (log' : List ExtRecord) (saved : Nat),
      fetch st.callIdx tok = .ok page →
      page.items ≠ [] →
      page.nextToken ≠ "#@" →
      process_extensions page.items st.log = .ok (log', saved) →
      runLoop fetch (fuel + 1) tok st =
        runLoop fetch fuel (some page.nextToken)
          { st with callIdx := st.callIdx + 1,
                    fetchedTokens := st.fetchedTokens ++ [tok],
                    log := log',
                    totalSaved := st.totalSaved + saved,
                    checkpoint := some page.nextToken }) := by
  constructor
  · intro fetch fuel tok st msg herr
    simp only [runLoop, herr]
  · intro fetch fuel tok st page log' saved hfetch hitems hsent hproc
    simp only [runLoop, hfetch]
    rw [if_neg (by simpa [List.isEmpty_iff] using hitems)]
    rw [hproc, if_neg hsent]
    simp

/-- Witness for the amended C5: a dead network aborts a fresh run on its
first fetch leaving the empty checkpoint untouched, and the first fixture
page commits the page-2 cursor `t2` before page 2 is fetched. -/
theorem c5_abort_and_commit_w :
    runLoop (fun _ _ => .error "network down") 1 none initialCollectorState =
      ({ initialCollectorState with callIdx := 1, fetchedTokens := [none] },
       .abortedFetch)
    ∧ runLoop fixtureFetch 1 none initialCollectorState =
        runLoop fixtureFetch 0 (some "t2")
          { initialCollectorState with
              callIdx := 1,
              fetchedTokens := [none],
              log := [infoA, infoC],
              totalSaved := 2,
              checkpoint := some "t2" } :=
  ⟨c5_abort_and_commit.1 (fun _ _ => .error "network down") 0 none
      initialCollectorState "network down" rfl,
   c5_abort_and_commit.2 fixtureFetch 0 none initialCollectorState page1
      [infoA, infoC] 2 rfl (by decide) (by decide) rfl⟩


/-! ## Downloader lemmas -/

theorem lookup_app_of_some (l₁ l₂ : List (String × String)) (k b : String)
    (h : l₁.lookup k = some b) : (l₁ ++ l₂).lookup k = some b := by
  induction l₁ with
  | nil => simp [List.lookup] at h
  | cons p t ih =>
    obtain ⟨a, v⟩ := p
    by_cases hak : (k == a) = true
    · simp only [List.cons_append, List.lookup, hak] at h ⊢
      exact h
    · have hak' : (k == a) = false := by simpa using hak
      simp only [List.cons_append, List.lookup, hak'] at h ⊢
      exact ih h

theorem lookup_app_right_of_none (l₁ : List (String × String)) (k v : String)
    (h : l₁.lookup k = none) : (l₁ ++ [(k, v)]).lookup k = some v := by
  induction l₁ with
  | nil => simp [List.lookup]
  | cons p t ih =>
    obtain ⟨a, w⟩ := p
    by_cases hak : (k == a) = true
    · simp only [List.lookup, hak] at h
      exact absurd h (by simp)
    · have hak' : (k == a) = false := by simpa using hak
      simp only [List.lookup, hak'] at h
      simp only [List.cons_append, List.lookup, hak']
      exact ih h

theorem step_preserves_lookup (net : String → Except String String)
    (r : DlRecord) (st : DlState) (p b : String)
    (h : st.files.lookup p = some b) :
    (downloadStep net r st).files.lookup p = some b := by
  cases hid : r.id with
  | none => simpa [downloadStep, hid] using h
  | some extId =>
    by_cases hemp : extId = ""
    · simpa [downloadStep, hid, hemp] using h
    · by_cases hex : (st.files.lookup (crxOutputPath extId)).isSome = true
      · simpa [downloadStep, hid, hemp, hex] using h
      · cases hnet : net extId with
        | ok body =>
          simp only [downloadStep, hid, if_neg hemp, if_neg hex, hnet]
          exact lookup_app_of_some _ _ _ _ h
        | error e =>
          simpa [downloadStep, hid, hemp, hex, hnet] using h

theorem main_preserves_lookup (net : String → Except String String) :
    ∀ (recs : List DlRecord) (st : DlState) (p b : String),
      st.files.lookup p = some b →
      (downloaderMain net recs st).files.lookup p = some b := by
  intro recs
  induction recs with
  | nil => intro st p b h; simpa [downloaderMain] using h
  | cons r rest ih =>
    intro st p b h
    simp only [downloaderMain]
    exact ih _ p b (step_preserves_lookup net r st p b h)

theorem dl_no_call_when_present (net : String → Except String String) :
    ∀ (recs : List DlRecord) (st : DlState) (i b : String),
      st.files.lookup (crxOutputPath i) = some b →
      ∃ newCalls, (downloaderMain net recs st).calls = st.calls ++ newCalls
        ∧ i ∉ newCalls
        ∧ (downloaderMain net recs st).files.lookup (crxOutputPath i) = some b := by
  intro recs
  induction recs with
  | nil =>
    intro st i b h
    exact ⟨[], by simp [downloaderMain], by simp, by simpa [downloaderMain] using h⟩
  | cons r rest ih =>
    intro st i b h
    simp only [downloaderMain]
    cases hid : r.id with
    | none =>
      have hstep : downloadStep net r st = st := by simp [downloadStep, hid]
      rw [hstep]
      exact ih st i b h
    | some extId =>
      by_cases hemp : extId = ""
      · have hstep : downloadStep net r st = st := by simp [downloadStep, hid, hemp]
        rw [hstep]
        exact ih st i b h
      · by_cases hex : (st.files.lookup (crxOutputPath extId)).isSome = true
        · have hstep : downloadStep net r st = st := by
            simp [downloadStep, hid, hemp, hex]
          rw [hstep]
          exact ih st i b h
        · have hne : extId ≠ i := by
            intro heq
            subst heq
            rw [h] at hex
            simp at hex
          cases hnet : net extId with
          | ok body =>
            have hstep : downloadStep net r st =
                { st with
                    files := st.files ++ [(crxOutputPath extId, body)],
                    calls := st.calls ++ [extId],
                    trace := st.trace ++ [.downloaded extId] } := by
              simp [downloadStep, hid, hemp, hex, hnet]
            rw [hstep]
            have h' : (st.files ++ [(crxOutputPath extId, body)]).lookup
                (crxOutputPath i) = some b := lookup_app_of_some _ _ _ _ h
            obtain ⟨nc, hc, hni, hf⟩ :=
              ih { st with
                     files := st.files ++ [(crxOutputPath extId, body)],
                     calls := st.calls ++ [extId],
                     trace := st.trace ++ [.downloaded extId] } i b h'
            refine ⟨extId :: nc, ?_, ?_, hf⟩
            · rw [hc]; simp
            · intro hmem
              rcases List.mem_cons.mp hmem with heq | htl
              · exact hne heq.symm
              · exact hni htl
          | error e =>
            have hstep : downloadStep net r st =
                { st with
                    calls := st.calls ++ [extId],
                    trace := st.trace ++ [.failed extId e] } := by
              simp [downloadStep, hid, hemp, hex, hnet]
            rw [hstep]
            obtain ⟨nc, hc, hni, hf⟩ :=
              ih { st with
                     calls := st.calls ++ [extId],
                     trace := st.trace ++ [.failed extId e] } i b h
            refine ⟨extId :: nc, ?_, ?_, hf⟩
            · rw [hc]; simp
            · intro hmem
              rcases List.mem_cons.mp hmem with heq | htl
              · exact hne heq.symm
              · exact hni htl

theorem dl_all_files_after (net : String → Except String String)
    (hok : ∀ j, exceptIsOk (net j) = true) :
    ∀ (recs : List DlRecord) (st : DlState) (r : DlRecord), r ∈ recs →
      ∀ i, recordValidId r = some i →
      ∃ b, (downloaderMain net recs st).files.lookup (crxOutputPath i) = some b := by
  intro recs
  induction recs with
  | nil => intro st r hmem; exact absurd hmem (List.not_mem_nil r)
  | cons r' rest ih =>
    intro st r hmem i hv
    rcases List.mem_cons.mp hmem with heq | htl
    · subst heq
      have hid : r.id = some i ∧ i ≠ "" := by
        cases hr : r.id with
        | none => simp [recordValidId, hr] at hv
        | some j =>
          by_cases hj : j = ""
          · simp [recordValidId, hr, hj] at hv
          · simp only [recordValidId, hr, if_neg hj, Option.some.injEq] at hv
            subst hv
            exact ⟨rfl, hj⟩
      obtain ⟨hrid, hnemp⟩ := hid
      simp only [downloaderMain]
      by_cases hex : (st.files.lookup (crxOutputPath i)).isSome = true
      · obtain ⟨b, hb⟩ := Option.isSome_iff_exists.mp hex
        exact ⟨b, main_preserves_lookup net rest _ _ b
          (step_preserves_lookup net r st _ b hb)⟩
      · cases hnet : net i with
        | ok body =>
          have hnone : st.files.lookup (crxOutputPath i) = none := by
            cases hcase : st.files.lookup (crxOutputPath i) with
            | none => rfl
            | some w => rw [hcase] at hex; simp at hex
          have hstep : downloadStep net r st =
              { st with
                  files := st.files ++ [(crxOutputPath i, body)],
                  calls := st.calls ++ [i],
                  trace := st.trace ++ [.downloaded i] } := by
            simp [downloadStep, hrid, hnemp, hex, hnet]
          rw [hstep]
          exact ⟨body, main_preserves_lookup net rest _ _ body
            (lookup_app_right_of_none _ _ _ hnone)⟩
        | error e =>
          have := hok i
          rw [hnet] at this
          simp [exceptIsOk] at this
    · exact ih (downloadStep net r' st) r htl i hv

theorem dl_skip_all (net : String → Except String String) :
    ∀ (recs : List DlRecord) (st : DlState),
      (∀ r ∈ recs, ∀ i, recordValidId r = some i →
        (st.files.lookup (crxOutputPath i)).isSome = true) →
      downloaderMain net recs st = st := by
  intro recs
  induction recs with
  | nil => intro st _; rfl
  | cons r rest ih =>
    intro st hall
    have hstep : downloadStep net r st = st := by
      cases hid : r.id with
      | none => simp [downloadStep, hid]
      | some extId =>
        by_cases hemp : extId = ""
        · simp [downloadStep, hid, hemp]
        · have hv : recordValidId r = some extId := by
            simp [recordValidId, hid, hemp]
          have hex := hall r (List.mem_cons_self r rest) extId hv
          simp [downloadStep, hid, hemp, hex]
    simp only [downloaderMain, hstep]
    exact ih st (fun r' hr' => hall r' (List.mem_cons_of_mem r hr'))

theorem loadLines_eq_filterMap :
    ∀ lines : List (Option DlRecord), loadLines lines = lines.filterMap id := by
  intro lines
  induction lines with
  | nil => rfl
  | cons l rest ih =>
    cases l with
    | none => simpa [loadLines] using ih
    | some r => simpa [loadLines] using ih

theorem dl_calls_sublist (net : String → Except String String) :
    ∀ (recs : List DlRecord) (st : DlState),
      ∃ newCalls, (downloaderMain net recs st).calls = st.calls ++ newCalls
        ∧ newCalls.Sublist (recs.filterMap recordValidId) := by
  intro recs
  induction recs with
  | nil =>
    intro st
    exact ⟨[], by simp [downloaderMain], List.nil_sublist _⟩
  | cons r rest ih =>
    intro st
    simp only [downloaderMain]
    cases hid : r.id with
    | none =>
      have hstep : downloadStep net r st = st := by simp [downloadStep, hid]
      have hval : recordValidId r = none := by simp [recordValidId, hid]
      obtain ⟨nc, hc, hs⟩ := ih st
      exact ⟨nc, by rw [hstep]; exact hc,
        by simpa [List.filterMap_cons, hval] using hs⟩
    | some extId =>
      by_cases hemp : extId = ""
      · have hstep : downloadStep net r st = st := by simp [downloadStep, hid, hemp]
        have hval : recordValidId r = none := by simp [recordValidId, hid, hemp]
        obtain ⟨nc, hc, hs⟩ := ih st
        exact ⟨nc, by rw [hstep]; exact hc,
          by simpa [List.filterMap_cons, hval] using hs⟩
      · have hval : recordValidId r = some extId := by
          simp [recordValidId, hid, hemp]
        by_cases hex : (st.files.lookup (crxOutputPath extId)).isSome = true
        · have hstep : downloadStep net r st = st := by
            simp [downloadStep, hid, hemp, hex]
          obtain ⟨nc, hc, hs⟩ := ih st
          refine ⟨nc, by rw [hstep]; exact hc, ?_⟩
          simp only [List.filterMap_cons, hval]
          exact hs.cons extId
        · cases hnet : net extId with
          | ok body =>
            have hstep : downloadStep net r st =
                { st with
                    files := st.files ++ [(crxOutputPath extId, body)],
                    calls := st.calls ++ [extId],
                    trace := st.trace ++ [.downloaded extId] } := by
              simp [downloadStep, hid, hemp, hex, hnet]
            rw [hstep]
            obtain ⟨nc, hc, hs⟩ :=
              ih { st with
                     files := st.files ++ [(crxOutputPath extId, body)],
                     calls := st.calls ++ [extId],
                     trace := st.trace ++ [.downloaded extId] }
            refine ⟨extId :: nc, by rw [hc]; simp, ?_⟩
            simp only [List.filterMap_cons, hval]
            exact hs.cons₂ extId
          | error e =>
            have hstep : downloadStep net r st =
                { st with
                    calls := st.calls ++ [extId],
                    trace := st.trace ++ [.failed extId e] } := by
              simp [downloadStep, hid, hemp, hex, hnet]
            rw [hstep]
            obtain ⟨nc, hc, hs⟩ :=
              ih { st with
                     calls := st.calls ++ [extId],
                     trace := st.trace ++ [.failed extId e] }
            refine ⟨extId :: nc, by rw [hc]; simp, ?_⟩
            simp only [List.filterMap_cons, hval]
            exact hs.cons₂ extId

/-! ## Download idempotence (C8) -/

/-- Claim C8: a record whose archive file already exists at the storage
path derived from its id causes zero network calls and the existing file
content is unchanged by the whole run; and when every attempted download
of a run succeeds, a second run over the same records on the resulting
store is a complete no-op — no network calls, no file changes, no
events. -/
theorem c8_download_idempotence :
    (∀ (net : String → Except String String) (recs : List DlRecord)
       (st : DlState) (i b : String),
      st.files.lookup (crxOutputPath i) = some b →
      ∃ newCalls, (downloaderMain net recs st).calls = st.calls ++ newCalls
        ∧ i ∉ newCalls
        ∧ (downloaderMain net recs st).files.lookup (crxOutputPath i) = some b)
    ∧ (∀ (net : String → Except String String) (recs : List DlRecord)
         (fs : List (String × String)),
        (∀ j, exceptIsOk (net j) = true) →
        downloaderMain net recs
          { files := (downloaderMain net recs
              { files := fs, calls := [], trace := [] }).files,
            calls := [], trace := [] }
        = { files := (downloaderMain net recs
              { files := fs, calls := [], trace := [] }).files,
            calls := [], trace := [] }) := by
  constructor
  · intro net recs st i b h
    exact dl_no_call_when_present net recs st i b h
  · intro net recs fs hok
    apply dl_skip_all
    intro r hr i hv
    obtain ⟨b, hb⟩ := dl_all_files_after net hok recs
      { files := fs, calls := [], trace := [] } r hr i hv
    simp only [hb, Option.isSome_some]

/-- Witness for C8: with `aaa`'s archive already on disk, a run over
`[recA]` issues no call for `aaa` and keeps the old bytes; and a second
all-success run over `[recA, recB]` is a no-op. -/
theorem c8_download_idempotence_w :
    (∃ newCalls, (downloaderMain netOk [recA] stPre).calls = [] ++ newCalls
      ∧ "aaa" ∉ newCalls
      ∧ (downloaderMain netOk [recA] stPre).files.lookup
          (crxOutputPath "aaa") = some "old-bytes")
    ∧ downloaderMain netOk [recA, recB]
        { files := (downloaderMain netOk [recA, recB]
            { files := [], calls := [], trace := [] }).files,
          calls := [], trace := [] }
      = { files := (downloaderMain netOk [recA, recB]
            { files := [], calls := [], trace := [] }).files,
          calls := [], trace := [] } :=
  ⟨c8_download_idempotence.1 netOk [recA] stPre "aaa" "old-bytes" rfl,
   c8_download_idempotence.2 netOk [recA, recB] [] (fun _ => rfl)⟩

/-! ## Per-item failure isolation (C9) -/

/-- Claim C9: the downloader's loop always continues with the next item
(one step, then the rest of the batch — no outcome of a step aborts the
fold), and a failed attempt (non-2xx status or network error, both
modeled as the `Except.error` outcome of the request) leaves the store
untouched and surfaces a per-item event carrying the item id and the
cause. -/
theorem c9_per_item_failure :
    ∀ (net : String → Except String String) (st : DlState) (r : DlRecord)
      (rest : List DlRecord),
      downloaderMain net (r :: rest) st
        = downloaderMain net rest (downloadStep net r st)
      ∧ (∀ (i cause : String),
          r.id = some i → i ≠ "" →
          st.files.lookup (crxOutputPath i) = none →
          net i = .error cause →
          downloadStep net r st =
            { st with calls := st.calls ++ [i],
                      trace := st.trace ++ [.failed i cause] }) := by
  intro net st r rest
  constructor
  · rfl
  · intro i cause hid hemp hnof hnet
    simp [downloadStep, hid, hemp, hnof, hnet]

/-- Witness for C9: on a batch `[recB, recA]` where `bbb`'s download
fails, the failure is surfaced with its id and cause and the batch
continues: `aaa` is still downloaded afterwards. -/
theorem c9_per_item_failure_w :
    downloaderMain netFailB [recB, recA] { files := [], calls := [], trace := [] }
      = downloaderMain netFailB [recA]
          (downloadStep netFailB recB { files := [], calls := [], trace := [] })
    ∧ downloadStep netFailB recB { files := [], calls := [], trace := [] }
      = { files := [], calls := ["bbb"], trace := [.failed "bbb" "HTTP 404"] }
    ∧ (downloaderMain netFailB [recB, recA]
        { files := [], calls := [], trace := [] }).trace
      = [.failed "bbb" "HTTP 404", .downloaded "aaa"] :=
  ⟨(c9_per_item_failure netFailB { files := [], calls := [], trace := [] }
      recB [recA]).1,
   (c9_per_item_failure netFailB { files := [], calls := [], trace := [] }
      recB [recA]).2 "bbb" "HTTP 404" rfl (by decide) rfl rfl,
   rfl⟩

/-! ## Record-log loading (C10) -/

/-- Claim C10: loading the record log silently skips every line that is
not valid JSON (the result is exactly the decodable lines, in file
order, with no error raised and no warning emitted — the model records
no event for a skipped line), a loaded record whose id is missing or
empty is skipped with no network call and no state change at all, and
the network requests of a run are issued in file order (a sublist of the
valid ids in record order). -/
theorem c10_load_and_skip :
    (∀ lines : List (Option DlRecord),
      load_extension_list (some lines) = .ok (lines.filterMap id))
    ∧ (∀ (net : String → Except String String) (st : DlState) (r : DlRecord),
        r.id = none ∨ r.id = some "" → downloadStep net r st = st)
    ∧ (∀ (net : String → Except String String) (recs : List DlRecord)
         (st : DlState),
        ∃ newCalls, (downloaderMain net recs st).calls = st.calls ++ newCalls
          ∧ newCalls.Sublist (recs.filterMap recordValidId)) := by
  refine ⟨?_, ?_, ?_⟩
  · intro lines
    simp [load_extension_list, loadLines_eq_filterMap]
  · intro net st r h
    rcases h with h | h
    · simp [downloadStep, h]
    · simp [downloadStep, h]
  · intro net recs st
    exact dl_calls_sublist net recs st

/-- Witness for C10: a record log with an undecodable line loads to just
its decodable records, records without a usable id are skipped
unchanged, and a concrete mixed batch issues its calls in file order. -/
theorem c10_load_and_skip_w :
    load_extension_list (some [some recA, none, some recB])
      = .ok [recA, recB]
    ∧ downloadStep netOk recNoId { files := [], calls := [], trace := [] }
      = { files := [], calls := [], trace := [] }
    ∧ downloadStep netOk recEmptyId { files := [], calls := [], trace := [] }
      = { files := [], calls := [], trace := [] }
    ∧ (∃ newCalls,
        (downloaderMain netOk [recNoId, recA, recEmptyId, recB]
          { files := [], calls := [], trace := [] }).calls = [] ++ newCalls
        ∧ newCalls.Sublist
            ([recNoId, recA, recEmptyId, recB].filterMap recordValidId)) :=
  ⟨c10_load_and_skip.1 [some recA, none, some recB],
   c10_load_and_skip.2.1 netOk { files := [], calls := [], trace := [] }
     recNoId (Or.inl rfl),
   c10_load_and_skip.2.1 netOk { files := [], calls := [], trace := [] }
     recEmptyId (Or.inr rfl),
   c10_load_and_skip.2.2 netOk [recNoId, recA, recEmptyId, recB]
     { files := [], calls := [], trace := [] }⟩
